import Mathlib

/-!
Shallow embedding of the `ShortDebug` derive macro (src/lib.rs): a custom
`Debug`-like derive that, for named fields, renders `Option` fields only
when present (and then unwrapped) and `Vec` fields only when non-empty,
while all other fields are rendered unconditionally.

The embedding has three layers:
* the input shape the macro consumes (the `synstructure` view of a parsed
  type definition: variants, bindings, field types, attributes);
* the token-level output the macro generates, modelled as a small AST
  (`FieldCall`, `MatchArmBody`, `DebugImpl`) mirroring the `quote!`
  blocks of the source;
* the runtime behaviour of the generated code when executed against
  concrete field values (`execFieldCall`, `execArm`), following the
  semantics of `core::fmt`'s `debug_struct`/`debug_tuple` builders:
  each executed `.field(..)` call appends one entry to the builder.
-/

namespace ShortDebug

/-- One segment of a Rust type path (`syn::PathSegment`): its identifier
together with its generic arguments, carried as opaque text because the
macro only ever compares the identifier (`seg.ident == "Option"` etc.). -/
structure PathSegment where
  ident : String
  arguments : String
deriving DecidableEq, Repr

/-- The declared type of a field as the macro sees it: a type path
(`syn::Type::Path`, a list of segments) or any other type shape, which
the macro treats as opaque (the `if let syn::Type::Path(..)` at line 71
falls through for it). -/
inductive RustType where
  | path (segments : List PathSegment)
  | other (description : String)
deriving DecidableEq, Repr

/-- Field style of a variant (`syn::Fields`). -/
inductive FieldStyle where
  | named
  | unnamed
  | unit
deriving DecidableEq, Repr

/-- One field reached through a `synstructure::BindingInfo`: its optional
identifier (`binding.ast().ident`), its declared type (`binding.ast().ty`)
and its attributes, which the derive registers but never reads. -/
structure Field where
  ident : Option String
  ty : RustType
  attrs : List String
deriving DecidableEq, Repr

/-- One variant (`synstructure::VariantInfo`): identifier, field style,
the ordered bindings, and never-read attributes. -/
structure Variant where
  ident : String
  style : FieldStyle
  fields : List Field
  attrs : List String
deriving DecidableEq, Repr

/-- The whole input (`synstructure::Structure`): one variant for a plain
struct, one per case for an enum, and never-read attributes. -/
structure Structure where
  ident : String
  variants : List Variant
  attrs : List String
deriving DecidableEq, Repr

/-- The three field classifications of the spec. -/
inductive Classification where
  | optionalWrapped
  | sequenceWrapped
  | plain
deriving DecidableEq, Repr

/-- Lexical wrapper classification performed at src/lib.rs lines 71-86:
look only at the FIRST segment of a type path and compare its identifier
text against `Option` and `Vec`; every other shape, including non-path
types and paths whose first segment differs (such as `std::vec::Vec`),
is plain.  Total: no shape is an error. -/
def classify : RustType → Classification
  | .path segments =>
    match segments.head? with
    | some seg =>
      if seg.ident = "Option" then .optionalWrapped
      else if seg.ident = "Vec" then .sequenceWrapped
      else .plain
    | none => .plain
  | .other _ => .plain

/-- The builder the generated match arm opens (lines 38-41). -/
inductive BuilderKind where
  | debugStruct
  | debugTuple
deriving DecidableEq, Repr

/-- The token-level shape of one generated per-field statement: the four
possible `quote!` outcomes of `generate_debug_builder_call`.
`unconditionalUnnamed` is `debug_builder.field(#format);`,
`ifSome name` is `if let Some(v) = #format { debug_builder.field(#name, v); }`,
`ifNonEmpty name` is `if !#format.is_empty() { debug_builder.field(#name, #format); }`,
`unconditionalNamed name` is `debug_builder.field(#name, #format);`. -/
inductive FieldCall where
  | unconditionalUnnamed
  | ifSome (name : String)
  | ifNonEmpty (name : String)
  | unconditionalNamed (name : String)
deriving DecidableEq, Repr

/-- Whether a generated field statement is guarded by a value-dependent
condition. -/
def FieldCall.isConditional : FieldCall → Bool
  | .ifSome _ => true
  | .ifNonEmpty _ => true
  | _ => false

/-- Embeds `generate_debug_builder_call` (lines 61-90): a binding without
an identifier returns the bare unconditional tuple-style call BEFORE any
inspection of its type; a named binding branches on the lexical
classification of its declared type. -/
def generate_debug_builder_call (binding : Field) : FieldCall :=
  match binding.ident with
  | none => .unconditionalUnnamed
  | some name =>
    match classify binding.ty with
    | .optionalWrapped => .ifSome name
    | .sequenceWrapped => .ifNonEmpty name
    | .plain => .unconditionalNamed name

/-- The generated body of one match arm (the `quote!` block at lines
53-57): which builder is opened, the variant-name tag passed to it, and
the per-field statements laid out in order before `finish()`. -/
structure MatchArmBody where
  builderKind : BuilderKind
  name : String
  calls : List FieldCall
deriving DecidableEq, Repr

/-- Embeds `generate_match_arm_body` (lines 33-58): choose `debug_struct`
for named or unit fields and `debug_tuple` for unnamed fields, tag the
builder with the variant identifier, and push one generated call per
binding into a vector, in binding order. -/
def generate_match_arm_body (variant : Variant) : MatchArmBody :=
  { builderKind :=
      match variant.style with
      | .named => .debugStruct
      | .unit => .debugStruct
      | .unnamed => .debugTuple
    name := variant.ident
    calls := variant.fields.foldl
      (fun acc binding => acc ++ [generate_debug_builder_call binding]) [] }

/-- The generated `impl Debug` (lines 13-30): the trait bounds injected
by `add_bounds(AddBounds::Fields)` — one `Debug` requirement per field
type, modelled as the list of those types — and one match arm per
variant produced by `each_variant`. -/
structure DebugImpl where
  bounds : List RustType
  arms : List MatchArmBody
deriving DecidableEq, Repr

/-- Embeds `custom_debug_derive` (lines 13-30): request a `Debug` bound
for every field's type, then generate one match arm body per variant. -/
def custom_debug_derive (s : Structure) : DebugImpl :=
  { bounds := s.variants.flatMap (fun v => v.fields.map Field.ty)
    arms := s.variants.map generate_match_arm_body }

/-- A runtime field value, as far as the generated code can observe it:
an optional value, a sequence, or anything else (opaque). -/
inductive Value where
  | opt (inner : Option Value)
  | seq (elems : List Value)
  | prim (text : String)

/-- One `.field(..)` call actually executed by the generated code: the
name passed to the `debug_struct` builder (`none` for `debug_tuple`) and
the value handed to the formatter. -/
structure RenderedEntry where
  name : Option String
  value : Value

/-- Runs one generated per-field statement against the field's runtime
value, returning the single builder call it performs, if any.
`ifSome` executes `if let Some(v) = binding { debug_builder.field(name, v) }`,
so a present value contributes its INNER value and an absent one
contributes nothing; `ifNonEmpty` executes
`if !binding.is_empty() { debug_builder.field(name, binding) }`, so a
non-empty sequence contributes the whole sequence and an empty one
contributes nothing.  The guards only ever meet values of the matching
shape in well-typed generated code. -/
def execFieldCall : FieldCall → Value → Option RenderedEntry
  | .unconditionalUnnamed, val => some ⟨none, val⟩
  | .unconditionalNamed name, val => some ⟨some name, val⟩
  | .ifSome name, .opt (some v) => some ⟨some name, v⟩
  | .ifSome _, _ => none
  | .ifNonEmpty name, .seq (v :: vs) => some ⟨some name, .seq (v :: vs)⟩
  | .ifNonEmpty _, _ => none

/-- The observable output of one executed match arm: which builder was
used, the tag it was opened with, and the entries passed to it, in
execution order, before `finish()`. -/
structure RenderedOutput where
  builderKind : BuilderKind
  name : String
  entries : List RenderedEntry

/-- Executes a generated match arm body against the runtime values of the
variant's fields (position `i` of `vals` is the value bound by binding
`i`): the statements run in order and each contributes its entry, if
any, to the builder. -/
def execArm (arm : MatchArmBody) (vals : List Value) : RenderedOutput :=
  { builderKind := arm.builderKind
    name := arm.name
    entries := (arm.calls.zip vals).filterMap
      (fun cv => execFieldCall cv.1 cv.2) }

/-- Erases a field's attributes, keeping everything the macro reads. -/
def Field.stripAttrs (f : Field) : Field :=
  { f with attrs := [] }

/-- Erases a variant's attributes and those of its fields. -/
def Variant.stripAttrs (v : Variant) : Variant :=
  { v with attrs := [], fields := v.fields.map Field.stripAttrs }

/-- Erases a structure's attributes and those of its variants and
fields, keeping everything the macro reads. -/
def Structure.stripAttrs (s : Structure) : Structure :=
  { s with attrs := [], variants := s.variants.map Variant.stripAttrs }

/-- The source's push-into-a-vector loop accumulates exactly the map of
the call generator over the bindings, in order. -/
theorem foldl_append_calls (fields : List Field) (acc : List FieldCall) :
    fields.foldl (fun acc binding => acc ++ [generate_debug_builder_call binding]) acc
      = acc ++ fields.map generate_debug_builder_call := by
  induction fields generalizing acc with
  | nil => simp
  | cons f fs ih => simp [List.foldl_cons, ih]

/-- A concrete positional binding whose declared type is `Option<i32>`:
its type is classified optional-wrapped, but it carries no identifier. -/
def optPositional : Field :=
  { ident := none, ty := .path [⟨"Option", "i32"⟩], attrs := [] }

/-- C1 counterexample: the claim says an optional-wrapped positional
field is rendered conditionally (only when present).  On the code it is
not: for a positional `Option<i32>` field the classification is
optional-wrapped, yet the generated statement is the unguarded bare
tuple-style call, and executing it on an ABSENT value still emits an
entry (the wrapped value itself) instead of omitting the field. -/
theorem c1_counterexample :
    classify optPositional.ty = Classification.optionalWrapped
      ∧ (generate_debug_builder_call optPositional).isConditional = false
      ∧ execFieldCall (generate_debug_builder_call optPositional) (Value.opt none)
          = some ⟨none, Value.opt none⟩ :=
  ⟨rfl, rfl, rfl⟩

/-- C1 (amended): a positional (unnamed) field is always rendered
unconditionally as a bare value, regardless of its classification — the
early return for identifier-less bindings precedes the `Option`/`Vec`
inspection, so classification-based conditionality applies to named
fields only.  The generated statement is the unguarded tuple-style call
and executing it emits the full current value for every runtime value. -/
theorem c1_positional_always_unconditional (f : Field) (h : f.ident = none) :
    generate_debug_builder_call f = FieldCall.unconditionalUnnamed
      ∧ ∀ val : Value,
          execFieldCall (generate_debug_builder_call f) val = some ⟨none, val⟩ := by
  have hgen : generate_debug_builder_call f = FieldCall.unconditionalUnnamed := by
    simp [generate_debug_builder_call, h]
  exact ⟨hgen, fun val => by rw [hgen]; rfl⟩

/-- C1 witness: the amended statement at the concrete positional
`Option<i32>` field. -/
theorem c1_witness :
    generate_debug_builder_call optPositional = FieldCall.unconditionalUnnamed
      ∧ ∀ val : Value,
          execFieldCall (generate_debug_builder_call optPositional) val
            = some ⟨none, val⟩ :=
  c1_positional_always_unconditional optPositional rfl

/-- C2: a named field whose type is classified optional-wrapped is
rendered conditionally: executing the generated statement on an absent
value emits nothing (the field is omitted), and on a present value it
emits the field's name paired with exactly the unwrapped inner value —
the `Some(..)` wrapper never reaches the formatter. -/
theorem c2_named_option_unwrapped (f : Field) (name : String)
    (hname : f.ident = some name)
    (hcls : classify f.ty = Classification.optionalWrapped) :
    execFieldCall (generate_debug_builder_call f) (Value.opt none) = none
      ∧ ∀ v : Value,
          execFieldCall (generate_debug_builder_call f) (Value.opt (some v))
            = some ⟨some name, v⟩ := by
  have hgen : generate_debug_builder_call f = FieldCall.ifSome name := by
    simp [generate_debug_builder_call, hname, hcls]
  rw [hgen]
  exact ⟨rfl, fun v => rfl⟩

/-- A concrete named binding `name: Option<String>`. -/
def namedOptionField : Field :=
  { ident := some "name", ty := .path [⟨"Option", "String"⟩], attrs := [] }

/-- C2 witness: the statement at the concrete field `name: Option<String>`. -/
theorem c2_witness :
    execFieldCall (generate_debug_builder_call namedOptionField) (Value.opt none)
        = none
      ∧ ∀ v : Value,
          execFieldCall (generate_debug_builder_call namedOptionField)
              (Value.opt (some v))
            = some ⟨some "name", v⟩ :=
  c2_named_option_unwrapped namedOptionField "name" rfl rfl

/-- C3: a named field whose type is classified sequence-wrapped is
rendered conditionally: executing the generated statement on an empty
sequence emits nothing (the field is omitted), and on a non-empty
sequence it emits the field's name paired with the FULL sequence value,
not an unwrapped element. -/
theorem c3_named_vec_not_unwrapped (f : Field) (name : String)
    (hname : f.ident = some name)
    (hcls : classify f.ty = Classification.sequenceWrapped) :
    execFieldCall (generate_debug_builder_call f) (Value.seq []) = none
      ∧ ∀ (v : Value) (vs : List Value),
          execFieldCall (generate_debug_builder_call f) (Value.seq (v :: vs))
            = some ⟨some name, Value.seq (v :: vs)⟩ := by
  have hgen : generate_debug_builder_call f = FieldCall.ifNonEmpty name := by
    simp [generate_debug_builder_call, hname, hcls]
  rw [hgen]
  exact ⟨rfl, fun v vs => rfl⟩

/-- A concrete named binding `tags: Vec<String>`. -/
def namedVecField : Field :=
  { ident := some "tags", ty := .path [⟨"Vec", "String"⟩], attrs := [] }

/-- C3 witness: the statement at the concrete field `tags: Vec<String>`. -/
theorem c3_witness :
    execFieldCall (generate_debug_builder_call namedVecField) (Value.seq []) = none
      ∧ ∀ (v : Value) (vs : List Value),
          execFieldCall (generate_debug_builder_call namedVecField)
              (Value.seq (v :: vs))
            = some ⟨some "tags", Value.seq (v :: vs)⟩ :=
  c3_named_vec_not_unwrapped namedVecField "tags" rfl rfl

/-- C4: wrapper classification is purely lexical on the first segment of
the declared type's path: a type is optional-wrapped exactly when its
path starts with an identifier textually equal to `Option`, and
sequence-wrapped exactly when it starts with one equal to `Vec`; every
other shape is plain — in particular the fully-qualified
`std::vec::Vec<T>`, whose first segment is `std`, and non-path types.
`classify` is a total function, so no shape raises an error. -/
theorem c4_lexical_classification (ty : RustType) :
    (classify ty = Classification.optionalWrapped
        ↔ ∃ seg rest, ty = RustType.path (seg :: rest) ∧ seg.ident = "Option")
      ∧ (classify ty = Classification.sequenceWrapped
        ↔ ∃ seg rest, ty = RustType.path (seg :: rest) ∧ seg.ident = "Vec")
      ∧ classify (RustType.path [⟨"std", ""⟩, ⟨"vec", ""⟩, ⟨"Vec", "T"⟩])
          = Classification.plain
      ∧ classify (RustType.other "(i32, i32)") = Classification.plain := by
  refine ⟨?_, ?_, by decide, rfl⟩
  · cases ty with
    | other d => simp [classify]
    | path segments =>
      cases segments with
      | nil => simp [classify]
      | cons seg rest =>
        constructor
        · intro h
          refine ⟨seg, rest, rfl, ?_⟩
          by_contra hO
          simp [classify, hO] at h
          split at h <;> simp_all
        · rintro ⟨s, r, heq, hident⟩
          obtain ⟨rfl, rfl⟩ : seg = s ∧ rest = r := by
            simpa using heq
          simp [classify, hident]
  · cases ty with
    | other d => simp [classify]
    | path segments =>
      cases segments with
      | nil => simp [classify]
      | cons seg rest =>
        constructor
        · intro h
          refine ⟨seg, rest, rfl, ?_⟩
          by_contra hV
          simp only [classify, List.head?] at h
          split at h <;> simp_all
        · rintro ⟨s, r, heq, hident⟩
          obtain ⟨rfl, rfl⟩ : seg = s ∧ rest = r := by
            simpa using heq
          have hO : seg.ident ≠ "Option" := by
            rw [hident]; decide
          simp [classify, hident, hO]

/-- C5: the per-field statements of a generated match arm are exactly
the generated call of each binding, in declaration order — the loop
pushes one call per binding and the arm concatenates them in that same
order, so printed field order equals declared field order. -/
theorem c5_calls_in_declaration_order (v : Variant) :
    (generate_match_arm_body v).calls
      = v.fields.map generate_debug_builder_call := by
  simpa [generate_match_arm_body] using foldl_append_calls v.fields []

/-- C6: the rendering form is chosen solely from the field style — the
arm opens `debug_tuple` exactly for positional (unnamed) fields and
`debug_struct` exactly for named fields or no fields at all; the match
covers all three styles, so selection is total. -/
theorem c6_builder_form_selection (v : Variant) :
    ((generate_match_arm_body v).builderKind = BuilderKind.debugTuple
        ↔ v.style = FieldStyle.unnamed)
      ∧ ((generate_match_arm_body v).builderKind = BuilderKind.debugStruct
        ↔ (v.style = FieldStyle.named ∨ v.style = FieldStyle.unit)) := by
  cases h : v.style <;> simp [generate_match_arm_body, h]

/-- C7: a variant with zero fields generates an arm that opens its
builder tagged with the variant's identifier, issues zero field
statements, and finalizes; executing it renders the variant name with an
empty entry list, whichever builder form the field style selects. -/
theorem c7_zero_fields_render_bare_name (v : Variant) (h : v.fields = []) :
    (generate_match_arm_body v).name = v.ident
      ∧ (generate_match_arm_body v).calls = []
      ∧ execArm (generate_match_arm_body v) []
          = { builderKind := (generate_match_arm_body v).builderKind
              name := v.ident
              entries := [] } := by
  refine ⟨rfl, ?_, ?_⟩
  · simp [generate_match_arm_body, h]
  · simp [execArm, generate_match_arm_body, h]

/-- A concrete unit variant, rendered struct-style. -/
def unitVariant : Variant :=
  { ident := "Empty", style := .unit, fields := [], attrs := [] }

/-- A concrete zero-field tuple variant, rendered tuple-style. -/
def emptyTupleVariant : Variant :=
  { ident := "EmptyTuple", style := .unnamed, fields := [], attrs := [] }

/-- C7 witness: the statement at a concrete unit variant (struct-style)
and at a concrete zero-field tuple variant (tuple-style). -/
theorem c7_witness :
    ((generate_match_arm_body unitVariant).name = unitVariant.ident
      ∧ (generate_match_arm_body unitVariant).calls = []
      ∧ execArm (generate_match_arm_body unitVariant) []
          = { builderKind := (generate_match_arm_body unitVariant).builderKind
              name := unitVariant.ident
              entries := [] })
    ∧ ((generate_match_arm_body emptyTupleVariant).name = emptyTupleVariant.ident
      ∧ (generate_match_arm_body emptyTupleVariant).calls = []
      ∧ execArm (generate_match_arm_body emptyTupleVariant) []
          = { builderKind := (generate_match_arm_body emptyTupleVariant).builderKind
              name := emptyTupleVariant.ident
              entries := [] }) :=
  ⟨c7_zero_fields_render_bare_name unitVariant rfl,
   c7_zero_fields_render_bare_name emptyTupleVariant rfl⟩

/-- C8: a field classified plain is rendered unconditionally — the
generated statement carries no guard, and executing it on ANY runtime
value emits the field's name (for a named field) or no name (bare
position, for an unnamed field) together with the full current value. -/
theorem c8_plain_field_always_rendered (f : Field)
    (hcls : classify f.ty = Classification.plain) :
    (generate_debug_builder_call f).isConditional = false
      ∧ ∀ val : Value,
          execFieldCall (generate_debug_builder_call f) val
            = some ⟨f.ident, val⟩ := by
  cases hident : f.ident with
  | none =>
    have hgen : generate_debug_builder_call f = FieldCall.unconditionalUnnamed := by
      simp [generate_debug_builder_call, hident]
    rw [hgen]
    exact ⟨rfl, fun val => rfl⟩
  | some name =>
    have hgen : generate_debug_builder_call f = FieldCall.unconditionalNamed name := by
      simp [generate_debug_builder_call, hident, hcls]
    rw [hgen]
    exact ⟨rfl, fun val => rfl⟩

/-- A concrete named binding `x: i32`, classified plain. -/
def plainNamedField : Field :=
  { ident := some "x", ty := .path [⟨"i32", ""⟩], attrs := [] }

/-- C8 witness: the statement at the concrete plain field `x: i32`. -/
theorem c8_witness :
    (generate_debug_builder_call plainNamedField).isConditional = false
      ∧ ∀ val : Value,
          execFieldCall (generate_debug_builder_call plainNamedField) val
            = some ⟨plainNamedField.ident, val⟩ :=
  c8_plain_field_always_rendered plainNamedField rfl

/-- Stripping attributes changes nothing the call generator reads. -/
theorem gen_call_stripAttrs (f : Field) :
    generate_debug_builder_call f.stripAttrs = generate_debug_builder_call f := rfl

/-- Stripping attributes changes nothing the arm generator reads. -/
theorem arm_stripAttrs (v : Variant) :
    generate_match_arm_body v.stripAttrs = generate_match_arm_body v := by
  unfold generate_match_arm_body Variant.stripAttrs
  simp [foldl_append_calls, List.map_map, Function.comp_def, gen_call_stripAttrs]

/-- Stripping attributes preserves each field's declared type. -/
theorem stripAttrs_ty (f : Field) : f.stripAttrs.ty = f.ty := rfl

/-- Stripping attributes preserves the list of field types of a variant. -/
theorem variant_tys_stripAttrs (v : Variant) :
    v.stripAttrs.fields.map Field.ty = v.fields.map Field.ty := by
  simp [Variant.stripAttrs, List.map_map, Function.comp_def, stripAttrs_ty]

/-- Stripping attributes preserves the bound list collected over a
variant list. -/
theorem bounds_stripAttrs (variants : List Variant) :
    (variants.map Variant.stripAttrs).flatMap (fun v => v.fields.map Field.ty)
      = variants.flatMap (fun v => v.fields.map Field.ty) := by
  induction variants with
  | nil => rfl
  | cons v vs ih =>
    simp only [List.map_cons, List.flatMap_cons, ih]
    rw [variant_tys_stripAttrs]

/-- The whole derive is invariant under stripping attributes. -/
theorem derive_stripAttrs (s : Structure) :
    custom_debug_derive s.stripAttrs = custom_debug_derive s := by
  simp only [custom_debug_derive, Structure.stripAttrs, DebugImpl.mk.injEq]
  exact ⟨bounds_stripAttrs s.variants,
    by simp [List.map_map, Function.comp_def, arm_stripAttrs]⟩

/-- C9: the `debug` attribute is registered but never read — the
generated impl depends only on the attribute-stripped structure, so any
two inputs identical except for the presence or content of attributes
(on the type, its variants or its fields) generate the same impl. -/
theorem c9_attributes_never_read (s₁ s₂ : Structure)
    (h : s₁.stripAttrs = s₂.stripAttrs) :
    custom_debug_derive s₁ = custom_debug_derive s₂ := by
  rw [← derive_stripAttrs s₁, ← derive_stripAttrs s₂, h]

/-- A concrete one-field struct without any attributes. -/
def pointNoAttrs : Structure :=
  { ident := "Point"
    variants :=
      [{ ident := "Point", style := .named
         fields := [{ ident := some "x", ty := .path [⟨"i32", ""⟩], attrs := [] }]
         attrs := [] }]
    attrs := [] }

/-- The same struct with `debug` attributes on the type, the variant and
the field. -/
def pointWithAttrs : Structure :=
  { ident := "Point"
    variants :=
      [{ ident := "Point", style := .named
         fields :=
           [{ ident := some "x", ty := .path [⟨"i32", ""⟩]
              attrs := ["debug(skip)"] }]
         attrs := ["debug"] }]
    attrs := ["debug(compact)"] }

/-- C9 witness: the statement at two concrete structures differing only
in attributes. -/
theorem c9_witness :
    custom_debug_derive pointNoAttrs = custom_debug_derive pointWithAttrs :=
  c9_attributes_never_read pointNoAttrs pointWithAttrs (by decide)

/-- C10: `add_bounds(AddBounds::Fields)` makes the generated impl carry
a `Debug` requirement for every field's declared type, across all
variants — so a field whose type lacks `Debug` makes the generated impl
fail to compile; the generator itself never catches or downgrades this. -/
theorem c10_debug_bound_per_field_type (s : Structure) (v : Variant) (f : Field)
    (hv : v ∈ s.variants) (hf : f ∈ v.fields) :
    f.ty ∈ (custom_debug_derive s).bounds := by
  simp only [custom_debug_derive, List.mem_flatMap]
  exact ⟨v, hv, List.mem_map_of_mem Field.ty hf⟩

/-- C10 witness: the statement at the concrete one-field struct. -/
theorem c10_witness :
    Field.ty { ident := some "x", ty := .path [⟨"i32", ""⟩], attrs := [] }
      ∈ (custom_debug_derive pointNoAttrs).bounds :=
  c10_debug_bound_per_field_type pointNoAttrs
    { ident := "Point", style := .named
      fields := [{ ident := some "x", ty := .path [⟨"i32", ""⟩], attrs := [] }]
      attrs := [] }
    { ident := some "x", ty := .path [⟨"i32", ""⟩], attrs := [] }
    (by decide) (by decide)

end ShortDebug
